import Mathlib

/-!
Verification of the ICS-205 PDF to CHIRP CSV conversion pipeline
(src/worker/ics205-parser.js, the OpenAI + Gradient revision).

The JavaScript source is shallowly embedded below.  Strings are modelled as
Lean strings and all character-level operations work on `List Char`
(JavaScript string indices count UTF-16 units; for the ASCII data exercised
here the two notions agree).  JavaScript numbers are modelled as exact
rationals (`ℚ`); `parseFloat` is modelled as a partial function returning
`Option ℚ` where `none` stands for `NaN`.  Asynchronous calls to external
services (pdf-parse, the OpenAI API, the Gradient API) are modelled by an
environment record carrying each call's outcome; a `Except.error` outcome
stands for the JavaScript call throwing.
-/

namespace ICS205

/-- Whitespace class used by JavaScript `\s`, `trim` and `split` for the
ASCII range (space, tab, line feed, carriage return, vertical tab, form
feed). -/
def jsWs (c : Char) : Bool :=
  c = ' ' || c = '\t' || c = '\n' || c = '\r' || c = Char.ofNat 11 || c = Char.ofNat 12

/-- JavaScript `\w` word-character class: ASCII letters, digits and
underscore.  Used for the `\b` word-boundary assertions of the source's
regular expressions. -/
def isWordChar (c : Char) : Bool :=
  c.isAlpha || c.isDigit || c = '_'

/-- Longest digit prefix of a character list, together with the rest. -/
def digitSpan : List Char → List Char × List Char
  | [] => ([], [])
  | c :: rest =>
    if c.isDigit then (c :: (digitSpan rest).1, (digitSpan rest).2)
    else ([], c :: rest)

/-- Decimal digit character for a value below ten (larger values are
clamped; the function is only applied to remainders modulo ten). -/
def digitChar : ℕ → Char
  | 0 => '0' | 1 => '1' | 2 => '2' | 3 => '3' | 4 => '4'
  | 5 => '5' | 6 => '6' | 7 => '7' | 8 => '8' | _ => '9'

/-- Decimal digit characters of a natural number, most significant first;
models JavaScript integer-to-string conversion.  The first argument is
fuel, always instantiated at `n + 1` which is enough since `n / 10 < n`
for positive `n`. -/
def natReprAux : ℕ → ℕ → List Char
  | 0, _ => []
  | f + 1, n =>
    if n < 10 then [digitChar n]
    else natReprAux f (n / 10) ++ [digitChar (n % 10)]

/-- Decimal representation of a natural number, as produced by JavaScript
`String(n)` for non-negative integers. -/
def natRepr (n : ℕ) : String :=
  String.mk (natReprAux (n + 1) n)

/-- Numeric value of a list of digit characters read in base ten. -/
def digitsVal : List Char → ℕ
  | [] => 0
  | c :: rest => (c.toNat - 48) * 10 ^ rest.length + digitsVal rest

/-- Model of JavaScript `parseFloat`: skip leading whitespace, read an
optional sign, then digits, an optional decimal point and further digits.
Returns `none` (standing for `NaN`) when no digit is found.  Exponent
forms such as `1e3` and the literals `Infinity` are not modelled; no
string in this development uses them. -/
def parseFloat (s : String) : Option ℚ :=
  let cs := s.toList.dropWhile jsWs
  let (neg, cs) : Bool × List Char :=
    match cs with
    | '-' :: r => (true, r)
    | '+' :: r => (false, r)
    | _ => (false, cs)
  let (ip, r1) := digitSpan cs
  let (fp, _) : List Char × List Char :=
    match r1 with
    | '.' :: r => digitSpan r
    | _ => ([], r1)
  let mant : ℤ := digitsVal ip * 10 ^ fp.length + digitsVal fp
  if ip = [] ∧ fp = [] then none
  else some (mkRat (if neg then -mant else mant) (10 ^ fp.length))

/-- The six digits after the decimal point of `toFixed(6)` output, most
significant first, for a fractional part `f < 10^6`. -/
def sixFracDigits (f : ℕ) : List Char :=
  [digitChar (f / 100000 % 10), digitChar (f / 10000 % 10),
   digitChar (f / 1000 % 10), digitChar (f / 100 % 10),
   digitChar (f / 10 % 10), digitChar (f % 10)]

/-- Model of JavaScript `Number.prototype.toFixed(6)` on an exact
rational: the sign, then the integer part, a point, and exactly six
fractional digits, rounding half away from zero.  The scaled magnitude
`n = round(abs(q) * 10^6)` is computed on the numerator and denominator
directly: `abs(q)*10^6 + numden/2` over the common denominator, floored by
natural division. -/
def ratToFixed6 (q : ℚ) : String :=
  let n : ℕ := (2 * q.num.natAbs * 1000000 + q.den) / (2 * q.den)
  String.mk ((if q < 0 then ['-'] else []) ++ (natRepr (n / 1000000)).toList ++
    '.' :: sixFracDigits (n % 1000000))

/-- Trim `jsWs` characters from both ends of a character list; models
JavaScript `String.prototype.trim` for ASCII input. -/
def trimChars (cs : List Char) : List Char :=
  ((cs.dropWhile jsWs).reverse.dropWhile jsWs).reverse

/-- JavaScript `trim` at the string level. -/
def jsTrim (s : String) : String :=
  String.mk (trimChars s.toList)

/-- ASCII lower-casing of a character list; models JavaScript
`toLowerCase` for the ASCII strings compared in the source. -/
def lowerChars (cs : List Char) : List Char :=
  cs.map Char.toLower

/-- Whether the first list is an initial run of the second. -/
def leadsWith : List Char → List Char → Bool
  | [], _ => true
  | _ :: _, [] => false
  | p :: ps, h :: hs => p == h && leadsWith ps hs

/-- Whether `pat` occurs as a contiguous substring of `hay`; models
JavaScript `String.prototype.includes`. -/
def strContains (hay pat : List Char) : Bool :=
  match hay with
  | [] => pat.isEmpty
  | _ :: rest => leadsWith pat hay || strContains rest pat

/-- First segment of JavaScript `split(/\s\x7b2,\x7d/)`: the characters
before the first occurrence of two adjacent whitespace characters. -/
def firstSeg : List Char → List Char
  | [] => []
  | [c] => [c]
  | a :: b :: r => if jsWs a && jsWs b then [] else a :: firstSeg (b :: r)

/-- Characters before the first comma; the first CSV field of a row. -/
def firstField (cs : List Char) : List Char :=
  cs.takeWhile (fun c => c ≠ ',')

/-- Split a character list at line feeds; models JavaScript
`split('\n')`, which yields one more piece than there are separators. -/
def splitNl : List Char → List (List Char)
  | [] => [[]]
  | c :: r =>
    if c = '\n' then [] :: splitNl r
    else
      match splitNl r with
      | [] => [[c]]
      | h :: t => (c :: h) :: t

/-- `splitNl` at the string level. -/
def splitNlStr (s : String) : List String :=
  (splitNl s.toList).map String.mk

/-- Join character lists with a line feed; models JavaScript
`Array.prototype.join('\n')`. -/
def joinNlL : List (List Char) → List Char
  | [] => []
  | [l] => l
  | l :: rest => l ++ '\n' :: joinNlL rest

/-! ## Regular-expression scanners

The source uses two global regular expressions over each line:
`/\b(\d\x7b2,4\x7d\.\d\x7b1,4\x7d)\b/g` (frequency shape) and
`/\b(\d\x7b2,3\x7d\.\d\x7b1\x7d)\b/g` (tone shape). -/

/-- One attempt of the anchored pattern `\b \d (int digits) \. \d (frac
digits) \b` at the head of `cs`; the word boundary before `cs` is checked
by the caller.  Greedy matching with backtracking degenerates for this
pattern: taking fewer than the full digit run before the point leaves a
digit where the literal point must match, and taking fewer fractional
digits than the full run leaves a digit where the trailing word boundary
must hold, so the regex succeeds exactly on the full digit runs with
lengths in range. -/
def tryNumAt (intMin intMax fracMin fracMax : ℕ) (cs : List Char) :
    Option (List Char × List Char) :=
  let (ds, r1) := digitSpan cs
  if intMin ≤ ds.length ∧ ds.length ≤ intMax then
    match r1 with
    | '.' :: r2 =>
      let (fs, r3) := digitSpan r2
      if fracMin ≤ fs.length ∧ fs.length ≤ fracMax ∧
          (match r3 with | [] => true | c :: _ => !isWordChar c) = true then
        some (ds ++ '.' :: fs, r3)
      else none
    | _ => none
  else none

/-- Global scan of a pattern over a character list, in the manner of
JavaScript `String.prototype.match` with the `g` flag: starting positions
are tried left to right; the leading word boundary requires the previous
character (tracked by `prevWord`) not to be a word character; after a
match the scan resumes at the match end (the previous character is then a
digit, hence a word character).  The fuel argument is instantiated with
the list length, which suffices because every step consumes at least one
character. -/
def jsScanAux (try1 : List Char → Option (List Char × List Char)) :
    ℕ → Bool → List Char → List String
  | 0, _, _ => []
  | fuel + 1, prevWord, cs =>
    match cs with
    | [] => []
    | c :: rest =>
      if prevWord then jsScanAux try1 fuel (isWordChar c) rest
      else
        match try1 (c :: rest) with
        | some (m, rest2) => String.mk m :: jsScanAux try1 fuel true rest2
        | none => jsScanAux try1 fuel (isWordChar c) rest

/-- All matches of the numeric pattern with the given quantifier bounds. -/
def jsScanNum (intMin intMax fracMin fracMax : ℕ) (cs : List Char) :
    List String :=
  jsScanAux (tryNumAt intMin intMax fracMin fracMax) cs.length false cs

/-! ## Channel records

The record shape produced by both the AI tiers (parsed JSON objects) and
the heuristic tier.  `none` models an absent or `null` field of the
JavaScript object. -/

structure ChannelRec where
  name : Option String
  rxFreq : Option String
  txFreq : Option String
  tone : Option String
  mode : Option String
  remarks : Option String
deriving DecidableEq

/-- JavaScript `v || d` for a possibly absent string: the default is taken
when the field is absent, `null`, or the empty string (all falsy). -/
def jsOrS (v : Option String) (d : String) : String :=
  match v with
  | some s => if s.toList.isEmpty then d else s
  | none => d

/-- JavaScript truthiness of a possibly absent string. -/
def jsTruthy (v : Option String) : Bool :=
  match v with
  | some s => !s.toList.isEmpty
  | none => false

/-! ## Heuristic extractor (`fallbackParsing`, source lines 747-836) -/

/-- The line's frequency-shaped matches that survive the range filter
`30 <= f <= 3000` applied to their `parseFloat` value. -/
def lineValidFreqs (line : List Char) : List String :=
  (jsScanNum 2 4 1 4 line).filter fun f =>
    match parseFloat f with
    | some q => decide (30 ≤ q ∧ q ≤ 3000)
    | none => false

/-- Tone extraction: the first tone-shaped match, kept only when its value
lies in the CTCSS range `[67, 254.1]`. -/
def lineTone (line : List Char) : Option String :=
  match (jsScanNum 2 3 1 1 line).head? with
  | none => none
  | some t =>
    match parseFloat t with
    | some q => if 67 ≤ q ∧ q ≤ mkRat 2541 10 then some t else none
    | none => none

/-- Name heuristic: first 30 characters, first double-space segment,
trimmed, leading digits, whitespace, points and dashes stripped, with the
fallback label `Channel (count+1)` when fewer than two characters remain. -/
def lineName (count : ℕ) (line : List Char) : String :=
  let seg := trimChars (firstSeg (line.take 30))
  let seg := trimChars (seg.dropWhile fun c => c.isDigit || jsWs c || c = '.' || c = '-')
  if seg.length < 2 then "Channel " ++ natRepr (count + 1)
  else String.mk seg

/-- Remarks heuristic: characters 50 to 100 of lines longer than 50
characters, trimmed; otherwise `null`. -/
def lineRemarks (line : List Char) : Option String :=
  if 50 < line.length then some (String.mk (trimChars ((line.drop 50).take 50)))
  else none

/-- Processing of one raw line of `fallbackParsing`: trimming, the skip
conditions, frequency matching and filtering, and record construction.
`count` is the number of records accepted before this line. -/
def fallbackLine (count : ℕ) (raw : String) : Option ChannelRec :=
  let line := trimChars raw.toList
  if line.length < 5 then none
  else if strContains (lowerChars line) "frequency".toList &&
      strContains (lowerChars line) "channel".toList then none
  else if strContains (lowerChars line) "radio communications plan".toList then none
  else if (jsScanNum 2 4 1 4 line).isEmpty then none
  else
    match lineValidFreqs line with
    | [] => none
    | v0 :: vrest =>
      some { name := some (lineName count line), rxFreq := some v0,
             txFreq := some (vrest.headD v0), tone := lineTone line,
             mode := some "FM", remarks := lineRemarks line }

/-- The line loop of `fallbackParsing`, accumulating accepted records. -/
def fallbackAux : List String → List ChannelRec → List ChannelRec
  | [], acc => acc
  | ln :: rest, acc =>
    match fallbackLine acc.length ln with
    | some r => fallbackAux rest (acc ++ [r])
    | none => fallbackAux rest acc

/-- The heuristic tier: split the text at line feeds, process every line,
and fail when no record was produced. -/
def fallbackParsing (text : String) : Except String (List ChannelRec) :=
  match fallbackAux (splitNlStr text) [] with
  | [] => Except.error "No frequencies found in PDF."
  | l => Except.ok l

/-! ## CHIRP CSV encoder (`convertToChirpCSV`, source lines 844-915) -/

/-- The comma-to-semicolon substitution applied to remarks. -/
def commaToSemi (c : Char) : Char := if c = ',' then ';' else c

/-- Exact subtraction of rationals expressed through `mkRat` (so that
concrete instances evaluate by kernel reduction); `ratSub_eq` below
identifies it with the standard subtraction. -/
def ratSub (a b : ℚ) : ℚ :=
  mkRat (a.num * b.den - a.den * b.num) (a.den * b.den)

/-- Absolute value of a rational expressed through `mkRat`; `ratAbs_eq`
below identifies it with the standard absolute value. -/
def ratAbs (q : ℚ) : ℚ := mkRat q.num.natAbs q.den

/-- Join character lists with a comma; models `Array.prototype.join(',')`. -/
def joinCommaL : List (List Char) → List Char
  | [] => []
  | [l] => l
  | l :: rest => l ++ ',' :: joinCommaL rest

/-- The fourteen CHIRP column names. -/
def chirpHeaderFields : List String :=
  ["Location", "Name", "Frequency", "Duplex", "Offset", "Tone", "rToneFreq",
   "cToneFreq", "DtcsCode", "DtcsPolarity", "Mode", "TStep", "Skip", "Comment"]

/-- The CHIRP CSV header line. -/
def chirpHeader : String :=
  String.mk (joinCommaL (chirpHeaderFields.map String.toList))

/-- The duplex and offset columns derived from the parsed receive and
transmit frequencies.  The source tests `diff > 0` and `else if diff <
0`; over exact rationals with `rx` distinct from `tx` the difference is
nonzero, so the second test is the negation of the first.  When either
frequency fails to parse (JavaScript `NaN`), the strict-inequality
branches are not taken and the duplex and offset keep their initial
values. -/
def duplexOffset (rxQ txQ : Option ℚ) : String × String :=
  match rxQ, txQ with
  | some rx, some tx =>
    if rx ≠ tx then
      let diff := ratSub tx rx
      if 0 < diff then ("+", ratToFixed6 (ratAbs diff))
      else ("-", ratToFixed6 (ratAbs diff))
    else ("", "0.000000")
  | _, _ => ("", "0.000000")

/-- The fourteen fields of one CHIRP row for a record at a 0-based index.
A frequency that fails to parse is rendered by `toFixed` as `NaN`. -/
def chirpRowFields (freq : ChannelRec) (index : ℕ) : List String :=
  let name := String.mk ((jsOrS freq.name ("Channel " ++ natRepr (index + 1))).toList.take 16)
  let rxQ := parseFloat (jsOrS freq.rxFreq "0")
  let txQ := parseFloat (jsOrS freq.txFreq (jsOrS freq.rxFreq "0"))
  let duplexOffset := duplexOffset rxQ txQ
  let freqField := match rxQ with | some q => ratToFixed6 q | none => "NaN"
  let toneField := if jsTruthy freq.tone then "Tone" else ""
  let rToneFreq := jsOrS freq.tone "88.5"
  let cToneFreq := jsOrS freq.tone "88.5"
  let mode := jsOrS freq.mode "FM"
  let comment := String.mk (((jsOrS freq.remarks "").toList.map commaToSemi).take 256)
  [natRepr index, name, freqField, duplexOffset.1, duplexOffset.2, toneField,
   rToneFreq, cToneFreq, "023", "NN", mode, "5.00", "", comment]

/-- One CHIRP CSV row as a character list. -/
def chirpRowStr (freq : ChannelRec) (index : ℕ) : List Char :=
  joinCommaL ((chirpRowFields freq index).map String.toList)

/-- The row strings for a record list starting at a given index; models
the indexed `map` of the source. -/
def chirpRowsL : ℕ → List ChannelRec → List (List Char)
  | _, [] => []
  | i, r :: rest => chirpRowStr r i :: chirpRowsL (i + 1) rest

/-- `convertToChirpCSV`: header and rows joined with line feeds. -/
def convertToChirpCSV (frequencies : List ChannelRec) : String :=
  String.mk (joinNlL (chirpHeader.toList :: chirpRowsL 0 frequencies))

/-! ## Model response handling

`extractJsonArray` models the source regex `/\[[\s\S]*\]/`: the match, if
any, runs from the first opening square bracket to the last closing square
bracket after it.  The source's secondary fenced-code-block pattern is
dead code: it is consulted only when this regex found nothing, i.e. when
no opening bracket is followed by a closing one, and then the fenced
pattern, whose capture requires exactly such a pair, cannot match
either. -/

def extractJsonArray (s : String) : Option String :=
  let cs := s.toList.dropWhile fun c => c ≠ '['
  match cs with
  | '[' :: tail =>
    let upto := (tail.reverse.dropWhile fun c => c ≠ ']').reverse
    if upto.isEmpty then none
    else some (String.mk ('[' :: upto))
  | _ => none

/-! ## JSON parsing

`JSON.parse` restricted to the shapes the pipeline produces and consumes:
arrays of flat objects whose fields are strings, numbers or `null`.
Nested values, booleans, exponent-form numbers and unicode escapes are not
modelled and count as parse failures; no claim exercises them.  A number
field is stored as its lexeme, matching how the encoder later coerces it
back through `parseFloat`.  The source's subsequent `Array.isArray` check
cannot fail on a parsed input that begins with an opening bracket, so
parse failure and the not-an-array error are merged into one error
outcome. -/

/-- JSON whitespace. -/
def skipWsJ (cs : List Char) : List Char :=
  cs.dropWhile fun c => c = ' ' || c = '\t' || c = '\n' || c = '\r'

/-- JSON string escape codes (unicode escapes excluded), as the character
each code denotes; a character that is not an escape code gives `none`. -/
def jsonEscape (e : Char) : Option Char :=
  if e = 'n' then some '\n'
  else if e = 't' then some '\t'
  else if e = 'r' then some '\r'
  else if e = '"' ∨ e = '\\' ∨ e = '/' then some e
  else if e = 'b' then some (Char.ofNat 8)
  else if e = 'f' then some (Char.ofNat 12)
  else none

/-- Body of a JSON string after the opening quote, up to the closing
quote. -/
def parseJStrAux : List Char → Option (List Char × List Char)
  | [] => none
  | '"' :: r => some ([], r)
  | '\\' :: e :: r =>
    match jsonEscape e with
    | some c =>
      match parseJStrAux r with
      | some (cs, rest) => some (c :: cs, rest)
      | none => none
    | none => none
  | c :: r =>
    match parseJStrAux r with
    | some (cs, rest) => some (c :: cs, rest)
    | none => none

/-- A JSON string literal including its opening quote. -/
def parseJString : List Char → Option (List Char × List Char)
  | '"' :: r => parseJStrAux r
  | _ => none

/-- A JSON number lexeme (optional minus, digits, optional point and
digits). -/
def parseJNum (cs : List Char) : Option (List Char × List Char) :=
  let (neg, cs1) : Bool × List Char :=
    match cs with
    | '-' :: r => (true, r)
    | _ => (false, cs)
  let (ip, r1) := digitSpan cs1
  if ip.isEmpty then none
  else
    match r1 with
    | '.' :: r2 =>
      let (fp, r3) := digitSpan r2
      if fp.isEmpty then none
      else some ((if neg then ['-'] else []) ++ ip ++ '.' :: fp, r3)
    | _ => some ((if neg then ['-'] else []) ++ ip, r1)

/-- A scalar JSON value: a string, a number lexeme, or `null` (`none`). -/
def parseJVal (cs : List Char) : Option (Option String × List Char) :=
  match cs with
  | '"' :: _ =>
    match parseJString cs with
    | some (s, r) => some (some (String.mk s), r)
    | none => none
  | 'n' :: 'u' :: 'l' :: 'l' :: r => some (none, r)
  | _ =>
    match parseJNum cs with
    | some (lex, r) => some (some (String.mk lex), r)
    | none => none

/-- The record with every field absent. -/
def emptyRec : ChannelRec := ⟨none, none, none, none, none, none⟩

/-- Store a parsed key/value pair in a record; unknown keys are dropped
(they are never read downstream), later duplicates overwrite. -/
def setField (rec : ChannelRec) (key : String) (v : Option String) : ChannelRec :=
  if key = "name" then { rec with name := v }
  else if key = "rxFreq" then { rec with rxFreq := v }
  else if key = "txFreq" then { rec with txFreq := v }
  else if key = "tone" then { rec with tone := v }
  else if key = "mode" then { rec with mode := v }
  else if key = "remarks" then { rec with remarks := v }
  else rec

/-- One `"key": value` pair. -/
def parsePair (cs : List Char) : Option ((String × Option String) × List Char) :=
  match parseJString cs with
  | none => none
  | some (k, r1) =>
    match skipWsJ r1 with
    | ':' :: r3 =>
      match parseJVal (skipWsJ r3) with
      | some (v, r4) => some ((String.mk k, v), r4)
      | none => none
    | _ => none

/-- Remaining pairs of an object after the first, then the closing brace. -/
def parsePairsLoop : ℕ → ChannelRec → List Char → Option (ChannelRec × List Char)
  | 0, _, _ => none
  | fuel + 1, rec, cs =>
    match skipWsJ cs with
    | '}' :: r => some (rec, r)
    | ',' :: r =>
      match parsePair (skipWsJ r) with
      | some ((k, v), rest) => parsePairsLoop fuel (setField rec k v) rest
      | none => none
    | _ => none

/-- One flat JSON object as a channel record. -/
def parseObj (fuel : ℕ) (cs : List Char) : Option (ChannelRec × List Char) :=
  match cs with
  | '{' :: r =>
    match skipWsJ r with
    | '}' :: r2 => some (emptyRec, r2)
    | r2 =>
      match parsePair r2 with
      | some ((k, v), rest) => parsePairsLoop fuel (setField emptyRec k v) rest
      | none => none
  | _ => none

/-- Remaining elements of an array after the first, then the closing
bracket. -/
def parseObjsLoop : ℕ → List ChannelRec → List Char → Option (List ChannelRec × List Char)
  | 0, _, _ => none
  | fuel + 1, acc, cs =>
    match skipWsJ cs with
    | ']' :: r => some (acc.reverse, r)
    | ',' :: r =>
      match parseObj fuel (skipWsJ r) with
      | some (rec, rest) => parseObjsLoop fuel (rec :: acc) rest
      | none => none
    | _ => none

/-- `JSON.parse` composed with the `Array.isArray` check, on the substring
recovered by `extractJsonArray`.  The fuel is the input length plus one,
which suffices because every loop iteration consumes at least one
character. -/
def jsonParseFreqs (s : String) : Except Unit (List ChannelRec) :=
  let fuel := s.length + 1
  match skipWsJ s.toList with
  | '[' :: r =>
    match skipWsJ r with
    | ']' :: r2 => if (skipWsJ r2).isEmpty then Except.ok [] else Except.error ()
    | r2 =>
      match parseObj fuel r2 with
      | some (rec, rest) =>
        match parseObjsLoop fuel [rec] rest with
        | some (recs, rest2) =>
          if (skipWsJ rest2).isEmpty then Except.ok recs else Except.error ()
        | none => Except.error ()
      | none => Except.error ()
  | _ => Except.error ()

/-! ## AI tiers and the orchestrator

External calls are modelled by a `ConvEnv` value: the flags say whether the
corresponding API key environment variable is set, and each reply field
carries the completion text returned by the remote model, or
`Except.error` when the remote call throws (network, auth, quota).
`pdfText` is the text produced by `pdf-parse` for the buffer under
conversion, or `Except.error` when `pdf-parse` throws. -/

instance {ε α : Type} [DecidableEq ε] [DecidableEq α] : DecidableEq (Except ε α) := fun a b =>
  match a, b with
  | Except.error e1, Except.error e2 =>
    if h : e1 = e2 then isTrue (by rw [h]) else isFalse (by intro hc; cases hc; exact h rfl)
  | Except.error _, Except.ok _ => isFalse (by intro hc; cases hc)
  | Except.ok _, Except.error _ => isFalse (by intro hc; cases hc)
  | Except.ok v1, Except.ok v2 =>
    if h : v1 = v2 then isTrue (by rw [h]) else isFalse (by intro hc; cases hc; exact h rfl)

structure ConvEnv where
  openaiKey : Bool
  gradientKey : Bool
  openaiDocReply : Except String String
  openaiTextReply : Except String String
  gradientReply : Except String String
  pdfText : Except String String
deriving DecidableEq

/-- `extractTextFromPDF` (source lines 417-440): fails when `pdf-parse`
throws or when the extracted text is empty after trimming. -/
def extractTextFromPDF (env : ConvEnv) : Except String String :=
  match env.pdfText with
  | Except.error e => Except.error ("Failed to extract text from PDF: " ++ e)
  | Except.ok t =>
    if (jsTrim t).toList.isEmpty then
      Except.error "Failed to extract text from PDF: PDF contains no extractable text."
    else Except.ok t

/-- `parseICS205WithOpenAI` (source lines 451-552), the document tier:
recover the JSON array substring from the completion, parse it, reject
non-arrays, and also reject the empty array (`OpenAI found no frequencies
in the PDF`). -/
def parseICS205WithOpenAI (env : ConvEnv) : Except String (List ChannelRec) :=
  if !env.openaiKey then Except.error "OPENAI_API_KEY not configured"
  else
    match env.openaiDocReply with
    | Except.error e => Except.error e
    | Except.ok completion =>
      match extractJsonArray completion with
      | none => Except.error "No JSON array found in OpenAI response"
      | some js =>
        match jsonParseFreqs js with
        | Except.error _ => Except.error "OpenAI response is not an array"
        | Except.ok [] => Except.error "OpenAI found no frequencies in the PDF"
        | Except.ok l => Except.ok l

/-- `parseTextWithOpenAI` (source lines 560-635), the OpenAI text tier.
Unlike the document tier it has no emptiness check: a parsed empty array
is returned as a successful result. -/
def parseTextWithOpenAI (env : ConvEnv) (text : String) : Except String (List ChannelRec) :=
  if !env.openaiKey then Except.error "OPENAI_API_KEY not configured"
  else
    match env.openaiTextReply with
    | Except.error e => Except.error e
    | Except.ok completion =>
      match extractJsonArray completion with
      | none => Except.error "No JSON array found in OpenAI response"
      | some js =>
        match jsonParseFreqs js with
        | Except.error _ => Except.error "OpenAI response is not an array"
        | Except.ok l => Except.ok l

/-- The Gradient attempt inside `parseICS205WithAI` (source lines
658-730), factored out.  In the source, the missing-key check, a throwing
API call, an unparsable reply and a non-array reply all end in the same
call `fallbackParsing(text)` (the no-array case returns it directly, the
others throw into the enclosing catch which calls it), so they are merged
into one error outcome here and the fallback is applied by the caller.
Like the OpenAI text tier, a parsed empty array is a success. -/
def gradientParse (env : ConvEnv) : Except String (List ChannelRec) :=
  if !env.gradientKey then Except.error "GRADIENT_AI_API_KEY not configured"
  else
    match env.gradientReply with
    | Except.error e => Except.error e
    | Except.ok completion =>
      match extractJsonArray completion with
      | none => Except.error "No JSON array found in AI response"
      | some js =>
        match jsonParseFreqs js with
        | Except.error _ => Except.error "AI response is not an array"
        | Except.ok l => Except.ok l

/-- `parseICS205WithAI` (source lines 646-738): OpenAI text parsing first
when configured, then Gradient, then the regex fallback.  A failure of the
fallback itself propagates as the function's error. -/
def parseICS205WithAI (env : ConvEnv) (text : String) : Except String (List ChannelRec) :=
  let viaOpenAI : Option (List ChannelRec) :=
    if env.openaiKey then
      match parseTextWithOpenAI env text with
      | Except.ok l => some l
      | Except.error _ => none
    else none
  match viaOpenAI with
  | some l => Except.ok l
  | none =>
    match gradientParse env with
    | Except.ok l => Except.ok l
    | Except.error _ => fallbackParsing text

/-- The success payload of `convertICS205ToChirp`. -/
structure ConvResult where
  success : Bool
  csv : String
  filename : String
  channelCount : ℕ
deriving DecidableEq

/-- Output filename derivation (source line 376):
`filename.replace(/\.pdf$/i, '-channels.csv')`.  A single
case-insensitive trailing `.pdf` is replaced; when the pattern does not
match, JavaScript `replace` returns the input unchanged. -/
def convertOutputFilename (filename : String) : String :=
  let l := filename.toList
  if 4 ≤ l.length ∧ lowerChars (l.drop (l.length - 4)) = ['.', 'p', 'd', 'f'] then
    String.mk (l.take (l.length - 4)) ++ "-channels.csv"
  else filename

/-- `convertICS205ToChirp` (source lines 337-389), the orchestrator:
environment validation, the OpenAI document tier when configured (any
failure there is caught and leads to the text path), text extraction, the
text AI tiers with regex fallback, CSV encoding and filename
derivation. -/
def convertICS205ToChirp (env : ConvEnv) (filename : String := "ics205.pdf") :
    Except String ConvResult :=
  if !env.openaiKey && !env.gradientKey then
    Except.error "Missing required environment variables: At least one of OPENAI_API_KEY or GRADIENT_AI_API_KEY must be set"
  else
    let docTier : Option (List ChannelRec) :=
      if env.openaiKey then
        match parseICS205WithOpenAI env with
        | Except.ok l => some l
        | Except.error _ => none
      else none
    let freqData : Except String (List ChannelRec) :=
      match docTier with
      | some l => Except.ok l
      | none =>
        match extractTextFromPDF env with
        | Except.error e => Except.error e
        | Except.ok text => parseICS205WithAI env text
    match freqData with
    | Except.error e => Except.error ("Failed to convert ICS-205: " ++ e)
    | Except.ok freqs =>
      Except.ok { success := true, csv := convertToChirpCSV freqs,
                  filename := convertOutputFilename filename,
                  channelCount := freqs.length }

/-- No emitted free-text field of the record (name, tone, mode, remarks)
contains a line feed; the frequency strings are exempt because they reach
the output only through `parseFloat` and `toFixed`. -/
def noNlField (v : Option String) : Bool :=
  match v with
  | some s => decide ('\n' ∉ s.toList)
  | none => true

/-- `noNlField` on the four free-text fields of a record. -/
def recNoNl (r : ChannelRec) : Bool :=
  noNlField r.name && noNlField r.tone && noNlField r.mode && noNlField r.remarks

/-! ## Lemmas and claim theorems -/

theorem digitSpan_append (cs : List Char) :
    (digitSpan cs).1 ++ (digitSpan cs).2 = cs := by
  induction cs with
  | nil => rfl
  | cons c rest ih =>
    by_cases h : c.isDigit <;> simp [digitSpan, h, ih]

theorem digitSpan_rest_length (cs : List Char) :
    (digitSpan cs).2.length ≤ cs.length := by
  induction cs with
  | nil => simp [digitSpan]
  | cons c rest ih =>
    by_cases h : c.isDigit
    · simp only [digitSpan, h, if_pos, List.length_cons]
      omega
    · simp [digitSpan, h]

theorem digitSpan_isDigit (cs : List Char) :
    ∀ c ∈ (digitSpan cs).1, c.isDigit := by
  induction cs with
  | nil => simp [digitSpan]
  | cons c rest ih =>
    by_cases h : c.isDigit
    · simp only [digitSpan, h, if_pos, List.mem_cons]
      intro x hx
      rcases hx with hx | hx
      · rw [hx]; exact h
      · exact ih x hx
    · simp [digitSpan, h]

theorem digitChar_isDigit (n : ℕ) : (digitChar n).isDigit := by
  unfold digitChar
  split <;> decide

theorem natReprAux_isDigit (fuel n : ℕ) :
    ∀ c ∈ natReprAux fuel n, c.isDigit := by
  induction fuel using Nat.strong_induction_on generalizing n with
  | _ fuel ih =>
    match fuel with
    | 0 => simp [natReprAux]
    | f + 1 =>
      simp only [natReprAux]
      by_cases h : n < 10
      · simp [h, digitChar_isDigit]
      · simp [h]
        intro c hc
        rcases hc with hc | hc
        · exact ih f (by omega) (n / 10) c hc
        · rw [hc]; exact digitChar_isDigit _

theorem natRepr_isDigit (n : ℕ) : ∀ c ∈ (natRepr n).toList, c.isDigit := by
  simpa [natRepr] using natReprAux_isDigit (n + 1) n

theorem splitNl_ne_nil (cs : List Char) : splitNl cs ≠ [] := by
  match cs with
  | [] => simp [splitNl]
  | c :: r =>
    simp only [splitNl]
    by_cases h : c = '\n'
    · simp [h]
    · simp only [h, if_false]
      cases splitNl r <;> simp

theorem splitNl_joinNlL (ls : List (List Char)) (hne : ls ≠ [])
    (hnl : ∀ l ∈ ls, '\n' ∉ l) : splitNl (joinNlL ls) = ls := by
  induction ls with
  | nil => exact absurd rfl hne
  | cons l rest ih =>
    have hl : '\n' ∉ l := hnl l (by simp)
    match rest with
    | [] =>
      simp only [joinNlL]
      clear ih hne hnl
      induction l with
      | nil => rfl
      | cons c cr ihc =>
        have hc : c ≠ '\n' := fun h => hl (by simp [h])
        have hcr : '\n' ∉ cr := fun h => hl (List.mem_cons_of_mem _ h)
        simp only [splitNl, hc, if_false, ihc hcr]
    | r :: rs =>
      have hrest : splitNl (joinNlL (r :: rs)) = r :: rs :=
        ih (by simp) (fun x hx => hnl x (List.mem_cons_of_mem _ hx))
      show splitNl (l ++ '\n' :: joinNlL (r :: rs)) = l :: r :: rs
      clear ih hne hnl
      induction l with
      | nil => simp [splitNl, hrest]
      | cons c cr ihc =>
        have hc : c ≠ '\n' := fun h => hl (by simp [h])
        have hcr : '\n' ∉ cr := fun h => hl (List.mem_cons_of_mem _ h)
        have := ihc hcr
        simp only [List.cons_append, splitNl, hc, if_false, List.append_eq, this]

theorem firstField_of_append (l₁ l₂ : List Char) (h : ',' ∉ l₁) :
    firstField (l₁ ++ ',' :: l₂) = l₁ := by
  induction l₁ with
  | nil => simp [firstField]
  | cons c cr ih =>
    have hc : c ≠ ',' := fun hce => h (by simp [hce])
    have hcr : ',' ∉ cr := fun hm => h (List.mem_cons_of_mem _ hm)
    simpa [firstField, List.takeWhile_cons, hc] using ih hcr

/-! ## General lemmas -/

theorem toList_mk (l : List Char) : (String.mk l).toList = l := rfl

/-- Every successful conversion result is built from some record list:
its csv is that list encoded, its filename comes from
`convertOutputFilename`, and its channel count is the list length. -/
theorem convertICS205ToChirp_ok_shape (env : ConvEnv) (f : String) (r : ConvResult)
    (h : convertICS205ToChirp env f = Except.ok r) :
    ∃ freqs, r = ⟨true, convertToChirpCSV freqs, convertOutputFilename f, freqs.length⟩ := by
  simp only [convertICS205ToChirp] at h
  split at h
  · cases h
  · split at h
    · cases h
    · exact ⟨_, ((Except.ok.injEq _ _).mp h).symm⟩

/-- A member of the filtered frequency list parses into `[30, 3000]`. -/
theorem lineValidFreqs_mem (line : List Char) (s : String) (hs : s ∈ lineValidFreqs line) :
    ∃ q, parseFloat s = some q ∧ 30 ≤ q ∧ q ≤ 3000 := by
  unfold lineValidFreqs at hs
  have hp := List.of_mem_filter hs
  cases hq : parseFloat s with
  | none => rw [hq] at hp; cases hp
  | some q =>
    rw [hq] at hp
    exact ⟨q, rfl, of_decide_eq_true hp⟩

/-- Every record accepted by the per-line heuristic carries a receive and
a transmit frequency string whose parsed values lie in `[30, 3000]`. -/
theorem fallbackLine_freq_range (count : ℕ) (raw : String) (r : ChannelRec)
    (h : fallbackLine count raw = some r) :
    (∃ s q, r.rxFreq = some s ∧ parseFloat s = some q ∧ 30 ≤ q ∧ q ≤ 3000) ∧
    (∃ s q, r.txFreq = some s ∧ parseFloat s = some q ∧ 30 ≤ q ∧ q ≤ 3000) := by
  simp only [fallbackLine] at h
  split at h
  · cases h
  split at h
  · cases h
  split at h
  · cases h
  split at h
  · cases h
  split at h
  · cases h
  rename_i v0 vrest heq
  cases h
  have hv0 : v0 ∈ lineValidFreqs (trimChars raw.toList) := by
    rw [heq]; exact List.mem_cons_self _ _
  refine ⟨?_, ?_⟩
  · obtain ⟨q, hq, h1, h2⟩ := lineValidFreqs_mem _ _ hv0
    exact ⟨v0, q, rfl, hq, h1, h2⟩
  · cases hvr : vrest with
    | nil =>
      obtain ⟨q, hq, h1, h2⟩ := lineValidFreqs_mem _ _ hv0
      exact ⟨v0, q, by simp [hvr], hq, h1, h2⟩
    | cons w ws =>
      have hw : w ∈ lineValidFreqs (trimChars raw.toList) := by
        rw [heq, hvr]
        exact List.mem_cons_of_mem _ (List.mem_cons_self _ _)
      obtain ⟨q, hq, h1, h2⟩ := lineValidFreqs_mem _ _ hw
      exact ⟨w, q, by simp [hvr], hq, h1, h2⟩

/-- Any property of heuristically produced records that holds for every
output of `fallbackLine` holds for everything the line loop adds. -/
theorem fallbackAux_forall (P : ChannelRec → Prop)
    (hline : ∀ c raw r, fallbackLine c raw = some r → P r) :
    ∀ lines acc, (∀ r ∈ acc, P r) → ∀ r ∈ fallbackAux lines acc, P r := by
  intro lines
  induction lines with
  | nil =>
    intro acc hacc r hr
    exact hacc r hr
  | cons ln rest ih =>
    intro acc hacc r hr
    simp only [fallbackAux] at hr
    cases hfl : fallbackLine acc.length ln with
    | some rec =>
      rw [hfl] at hr
      refine ih _ ?_ r hr
      intro x hx
      rcases List.mem_append.mp hx with hx | hx
      · exact hacc x hx
      · simp only [List.mem_singleton] at hx
        rw [hx]
        exact hline _ _ _ hfl
    | none =>
      rw [hfl] at hr
      exact ih _ hacc r hr

/-- `ratSub` is subtraction. -/
theorem ratSub_eq (a b : ℚ) : ratSub a b = a - b := by
  unfold ratSub
  rw [Rat.mkRat_eq_div]
  have ha : (a.den : ℚ) ≠ 0 := Nat.cast_ne_zero.mpr a.den_nz
  have hb : (b.den : ℚ) ≠ 0 := Nat.cast_ne_zero.mpr b.den_nz
  conv_rhs => rw [← Rat.num_div_den a, ← Rat.num_div_den b]
  rw [div_sub_div _ _ ha hb]
  push_cast
  rfl

/-- `ratAbs` is the absolute value. -/
theorem ratAbs_eq (q : ℚ) : ratAbs q = |q| := by
  unfold ratAbs
  rw [Rat.mkRat_eq_div]
  conv_rhs => rw [← Rat.num_div_den q]
  rw [abs_div]
  congr 1
  · rw [← Int.cast_abs, Int.abs_eq_natAbs]
  · rw [abs_of_nonneg (by positivity)]

/-- The fractional digits of `toFixed(6)` are six digit characters. -/
theorem sixFracDigits_all (f : ℕ) : (sixFracDigits f).all Char.isDigit = true := by
  simp only [sixFracDigits, List.all_cons, List.all_nil, Bool.and_true, Bool.and_eq_true]
  exact ⟨digitChar_isDigit _, digitChar_isDigit _, digitChar_isDigit _, digitChar_isDigit _,
    digitChar_isDigit _, digitChar_isDigit _⟩

theorem natRepr_noNl (n : ℕ) : '\n' ∉ (natRepr n).toList := by
  intro hm
  exact absurd (natRepr_isDigit n '\n' hm) (by decide)

theorem natRepr_noComma (n : ℕ) : ',' ∉ (natRepr n).toList := by
  intro hm
  exact absurd (natRepr_isDigit n ',' hm) (by decide)

theorem jsOrS_noNl (v : Option String) (d : String) (hv : noNlField v = true)
    (hd : '\n' ∉ d.toList) : '\n' ∉ (jsOrS v d).toList := by
  cases v with
  | none => exact hd
  | some s =>
    simp only [noNlField, decide_eq_true_eq] at hv
    show '\n' ∉ (if s.toList.isEmpty then d else s).toList
    split
    · exact hd
    · exact hv

theorem ratToFixed6_noNl (q : ℚ) : '\n' ∉ (ratToFixed6 q).toList := by
  unfold ratToFixed6
  rw [toList_mk]
  intro hm
  rcases List.mem_append.mp hm with hm | hm
  · rcases List.mem_append.mp hm with hm | hm
    · by_cases hq : q < 0
      · rw [if_pos hq] at hm
        exact absurd hm (by decide)
      · rw [if_neg hq] at hm
        cases hm
    · exact natRepr_noNl _ hm
  · cases hm with
    | tail _ h =>
      have hdig := List.all_eq_true.mp (sixFracDigits_all _) '\n' h
      exact absurd hdig (by decide)

theorem map_commaToSemi_noNl (l : List Char) (h : '\n' ∉ l) :
    '\n' ∉ l.map commaToSemi := by
  intro hm
  obtain ⟨c, hc, he⟩ := List.mem_map.mp hm
  unfold commaToSemi at he
  by_cases hcc : c = ','
  · rw [if_pos hcc] at he
    cases he
  · rw [if_neg hcc] at he
    rw [he] at hc
    exact h hc

theorem joinCommaL_noNl (ls : List (List Char)) (h : ∀ l ∈ ls, '\n' ∉ l) :
    '\n' ∉ joinCommaL ls := by
  induction ls with
  | nil => simp [joinCommaL]
  | cons l rest ih =>
    cases rest with
    | nil => exact h l (by simp)
    | cons l2 t =>
      intro hm
      rcases List.mem_append.mp hm with hm | hm
      · exact h l (by simp) hm
      · cases hm with
        | tail _ hm2 =>
          exact ih (fun x hx => h x (List.mem_cons_of_mem _ hx)) hm2

theorem duplexOffset_noNl (rxQ txQ : Option ℚ) :
    '\n' ∉ (duplexOffset rxQ txQ).1.toList ∧ '\n' ∉ (duplexOffset rxQ txQ).2.toList := by
  unfold duplexOffset
  split
  · rename_i rx tx
    by_cases hne : rx ≠ tx
    · simp only [if_pos hne]
      by_cases hpos : 0 < ratSub tx rx
      · simp only [if_pos hpos]
        exact ⟨by decide, ratToFixed6_noNl _⟩
      · simp only [if_neg hpos]
        exact ⟨by decide, ratToFixed6_noNl _⟩
    · simp only [if_neg hne]
      exact ⟨by decide, by decide⟩
  · exact ⟨by decide, by decide⟩

theorem chirpRowFields_noNl (r : ChannelRec) (i : ℕ) (h : recNoNl r = true) :
    ∀ f ∈ chirpRowFields r i, '\n' ∉ f.toList := by
  simp only [recNoNl, Bool.and_eq_true, and_assoc] at h
  obtain ⟨hn1, hn2, hn3, hn4⟩ := h
  have hchannel : '\n' ∉ ("Channel " ++ natRepr (i + 1)).toList := by
    intro hm
    rcases List.mem_append.mp hm with hm | hm
    · exact absurd hm (by decide)
    · exact natRepr_noNl _ hm
  intro f hf
  simp only [chirpRowFields, List.mem_cons, List.not_mem_nil, or_false] at hf
  rcases hf with rfl | rfl | rfl | rfl | rfl | rfl | rfl | rfl | rfl | rfl | rfl | rfl | rfl | rfl
  · exact natRepr_noNl i
  · rw [toList_mk]
    intro hm
    exact jsOrS_noNl r.name _ hn1 hchannel (List.take_subset _ _ hm)
  · cases parseFloat (jsOrS r.rxFreq "0") with
    | some q => exact ratToFixed6_noNl q
    | none => decide
  · exact (duplexOffset_noNl _ _).1
  · exact (duplexOffset_noNl _ _).2
  · by_cases ht : jsTruthy r.tone
    · simp [ht]
    · simp [ht]
  · exact jsOrS_noNl r.tone _ hn2 (by decide)
  · exact jsOrS_noNl r.tone _ hn2 (by decide)
  · decide
  · decide
  · exact jsOrS_noNl r.mode _ hn3 (by decide)
  · decide
  · decide
  · rw [toList_mk]
    intro hm
    exact map_commaToSemi_noNl _ (jsOrS_noNl r.remarks _ hn4 (by decide))
      (List.take_subset _ _ hm)

theorem chirpRowStr_noNl (r : ChannelRec) (i : ℕ) (h : recNoNl r = true) :
    '\n' ∉ chirpRowStr r i := by
  apply joinCommaL_noNl
  intro l hl
  obtain ⟨f, hf, rfl⟩ := List.mem_map.mp hl
  exact chirpRowFields_noNl r i h f hf

theorem chirpRowsL_noNl (rs : List ChannelRec) :
    ∀ i : ℕ, (∀ r ∈ rs, recNoNl r = true) → ∀ l ∈ chirpRowsL i rs, '\n' ∉ l := by
  induction rs with
  | nil =>
    intro i _ l hl
    simp [chirpRowsL] at hl
  | cons r rest ih =>
    intro i h l hl
    simp only [chirpRowsL, List.mem_cons] at hl
    rcases hl with rfl | hl
    · exact chirpRowStr_noNl r i (h r (by simp))
    · exact ih (i + 1) (fun x hx => h x (List.mem_cons_of_mem _ hx)) l hl

theorem chirpRowsL_length (rs : List ChannelRec) :
    ∀ i : ℕ, (chirpRowsL i rs).length = rs.length := by
  induction rs with
  | nil => intro i; rfl
  | cons r rest ih =>
    intro i
    simp only [chirpRowsL, List.length_cons, ih (i + 1)]

theorem firstField_joinCommaL (a l2 : List Char) (rest : List (List Char))
    (h : ',' ∉ a) : firstField (joinCommaL (a :: l2 :: rest)) = a := by
  show firstField (a ++ ',' :: joinCommaL (l2 :: rest)) = a
  exact firstField_of_append _ _ h

theorem chirpRowStr_firstField (r : ChannelRec) (i : ℕ) :
    firstField (chirpRowStr r i) = (natRepr i).toList := by
  show firstField (joinCommaL ((chirpRowFields r i).map String.toList)) = _
  simp only [chirpRowFields, List.map_cons]
  exact firstField_joinCommaL _ _ _ (natRepr_noComma i)

theorem chirpRowsL_firstFields (rs : List ChannelRec) :
    ∀ i : ℕ, (chirpRowsL i rs).map (fun l => String.mk (firstField l)) =
      (List.range' i rs.length).map natRepr := by
  induction rs with
  | nil => intro i; rfl
  | cons r rest ih =>
    intro i
    simp only [chirpRowsL, List.map_cons, List.length_cons, List.range'_succ]
    congr 1
    · rw [chirpRowStr_firstField]
      rfl
    · exact ih (i + 1)

/-- Every `toFixed(6)` output ends in a decimal point followed by exactly
six digits. -/
theorem ratToFixed6_six (q : ℚ) :
    ((ratToFixed6 q).toList.reverse.take 6).all Char.isDigit = true ∧
    ((ratToFixed6 q).toList.reverse.drop 6).head? = some '.' := by
  unfold ratToFixed6
  rw [toList_mk]
  have hlen : (sixFracDigits ((2 * q.num.natAbs * 1000000 + q.den) / (2 * q.den) % 1000000)).length = 6 := rfl
  rw [List.reverse_append, List.reverse_cons, List.append_assoc]
  rw [List.take_append_of_le_length (by rw [List.length_reverse, hlen])]
  constructor
  · rw [List.take_of_length_le (by rw [List.length_reverse, hlen]), List.all_reverse]
    exact sixFracDigits_all _
  · rw [List.drop_append_of_le_length (by rw [List.length_reverse, hlen])]
    rw [List.drop_eq_nil_of_le (by rw [List.length_reverse, hlen])]
    simp

/-! ## Claim theorems -/

/-- C3, counterexample: the value `100.0` on the line `Page 12.5 of
100.0` lies inside the accepted range `[30, 3000]`, so the heuristic
extractor produces one record from that line (with `rxFrequency` and
`txFrequency` both `100.0`), contradicting the claim that the line yields
no channel record. -/
theorem fallback_page_line_counterexample :
    fallbackParsing "Page 12.5 of 100.0" =
      Except.ok [⟨some "Page 12.5 of 100.0", some "100.0", some "100.0", none, some "FM",
        none⟩] := by decide

/-- C3 (amended): candidate numbers outside `[30, 3000]` are discarded —
every record produced by the heuristic extractor carries receive and
transmit frequency strings whose parsed values lie in `[30, 3000]` — and
the line `Simplex  146.520  146.520  100.0` yields exactly one record
with rxFrequency `146.520`, txFrequency `146.520` and tone `100.0`.
However, the single line `Page 12.5 of 100.0` yields one record rather
than none: only `12.5` falls outside `[30, 3000]`; `100.0` is inside the
range and becomes the record's frequency. -/
theorem fallbackParsing_freq_range (text : String) (l : List ChannelRec)
    (h : fallbackParsing text = Except.ok l) :
    (∀ r ∈ l, (∃ s q, r.rxFreq = some s ∧ parseFloat s = some q ∧ 30 ≤ q ∧ q ≤ 3000) ∧
              (∃ s q, r.txFreq = some s ∧ parseFloat s = some q ∧ 30 ≤ q ∧ q ≤ 3000)) ∧
    fallbackParsing "Simplex  146.520  146.520  100.0" =
      Except.ok [⟨some "Simplex", some "146.520", some "146.520", some "100.0", some "FM",
        none⟩] := by
  constructor
  · unfold fallbackParsing at h
    intro r hr
    have hmem : r ∈ fallbackAux (splitNlStr text) [] := by
      cases hfa : fallbackAux (splitNlStr text) [] with
      | nil => rw [hfa] at h; cases h
      | cons a t =>
        rw [hfa] at h
        have h2 : Except.ok (a :: t) = Except.ok l := h
        injection h2 with h3
        rw [h3]
        exact hr
    exact fallbackAux_forall _
      (fun c raw rec hrec => fallbackLine_freq_range c raw rec hrec)
      (splitNlStr text) [] (by simp) r hmem
  · decide

/-- C3 witness: the range invariant instantiated on the record produced
from the `Simplex` line. -/
theorem fallbackParsing_freq_range_witness :
    fallbackParsing "Simplex  146.520  146.520  100.0" =
      Except.ok [⟨some "Simplex", some "146.520", some "146.520", some "100.0", some "FM",
        none⟩] ∧
    ((∃ s q, (⟨some "Simplex", some "146.520", some "146.520", some "100.0", some "FM",
        none⟩ : ChannelRec).rxFreq = some s ∧ parseFloat s = some q ∧ 30 ≤ q ∧ q ≤ 3000) ∧
     (∃ s q, (⟨some "Simplex", some "146.520", some "146.520", some "100.0", some "FM",
        none⟩ : ChannelRec).txFreq = some s ∧ parseFloat s = some q ∧ 30 ≤ q ∧ q ≤ 3000)) :=
  ⟨by decide,
   (fallbackParsing_freq_range "Simplex  146.520  146.520  100.0" _ (by decide)).1 _
     (List.mem_singleton.mpr rfl)⟩

/-- C4, counterexample: on the line `CMD1  Command  155.160  155.160  –
FM  Net control` the first double-space-delimited segment of the first 30
characters is `CMD1`, which starts with a letter, so the
leading-digit/dot/dash strip removes nothing and the record's name is
`CMD1`, not `Command` as the claim states. -/
theorem fallback_cmd_line_counterexample :
    fallbackParsing "CMD1  Command  155.160  155.160  –  FM  Net control" =
      Except.ok [⟨some "CMD1", some "155.160", some "155.160", none, some "FM", some "l"⟩] ∧
    (some "CMD1" : Option String) ≠ some "Command" := ⟨by decide, by decide⟩

/-- C6: the encoder derives Duplex (field 3) and Offset (field 4) by
comparing the parsed transmit frequency to the parsed receive frequency:
equal gives an empty Duplex and Offset `0.000000`; `tx > rx` gives `+`;
`tx < rx` gives `-`; in both unequal cases the Offset is the absolute
difference formatted by `toFixed(6)`, and every emitted Offset ends in a
point followed by exactly six digits. -/
theorem chirpRow_duplex_offset (freq : ChannelRec) (i : ℕ) (rx tx : ℚ)
    (hrx : parseFloat (jsOrS freq.rxFreq "0") = some rx)
    (htx : parseFloat (jsOrS freq.txFreq (jsOrS freq.rxFreq "0")) = some tx) :
    (rx = tx → (chirpRowFields freq i).get? 3 = some "" ∧
               (chirpRowFields freq i).get? 4 = some "0.000000") ∧
    (rx < tx → (chirpRowFields freq i).get? 3 = some "+" ∧
               (chirpRowFields freq i).get? 4 = some (ratToFixed6 |tx - rx|)) ∧
    (tx < rx → (chirpRowFields freq i).get? 3 = some "-" ∧
               (chirpRowFields freq i).get? 4 = some (ratToFixed6 |tx - rx|)) ∧
    (∀ s, (chirpRowFields freq i).get? 4 = some s →
      (s.toList.reverse.take 6).all Char.isDigit = true ∧
      (s.toList.reverse.drop 6).head? = some '.') := by
  simp only [chirpRowFields, duplexOffset, hrx, htx]
  refine ⟨?_, ?_, ?_, ?_⟩
  · intro hEq
    subst hEq
    simp
  · intro hLt
    have hne : rx ≠ tx := ne_of_lt hLt
    have hpos : 0 < ratSub tx rx := by
      rw [ratSub_eq]
      linarith
    simp only [if_neg (by simpa using Ne.symm hne), if_pos hpos, ne_eq, hne,
      not_false_iff, if_true, ratAbs_eq, ratSub_eq]
    simp [hLt]
  · intro hLt
    have hne : rx ≠ tx := (ne_of_lt hLt).symm
    have hneg : ¬ 0 < ratSub tx rx := by
      rw [ratSub_eq]
      linarith
    simp only [ne_eq, hne, not_false_iff, if_true, if_neg hneg, ratAbs_eq, ratSub_eq,
      abs_sub_comm (tx) (rx)]
    simp [abs_sub_comm tx rx, lt_asymm hLt]
  · intro s hs
    by_cases hEq : rx = tx
    · subst hEq
      simp at hs
      rw [← hs]
      decide
    · simp only [ne_eq, hEq, not_false_iff, if_true] at hs
      by_cases hpos : 0 < ratSub tx rx
      · simp only [if_pos hpos] at hs
        simp at hs
        rw [← hs]
        exact ratToFixed6_six _
      · simp only [if_neg hpos] at hs
        simp at hs
        rw [← hs]
        exact ratToFixed6_six _

/-- C6 witness: the duplex/offset rule applied to a concrete record with
`tx` above `rx`. -/
theorem chirpRow_duplex_offset_witness :
    parseFloat (jsOrS (ChannelRec.rxFreq ⟨some "RPT", some "146.52", some "147.12",
        some "100.0", some "FM", none⟩) "0") = some (mkRat 14652 100) ∧
    parseFloat (jsOrS (ChannelRec.txFreq ⟨some "RPT", some "146.52", some "147.12",
        some "100.0", some "FM", none⟩)
      (jsOrS (ChannelRec.rxFreq ⟨some "RPT", some "146.52", some "147.12",
        some "100.0", some "FM", none⟩) "0")) = some (mkRat 14712 100) ∧
    mkRat 14652 100 < mkRat 14712 100 ∧
    (chirpRowFields ⟨some "RPT", some "146.52", some "147.12", some "100.0", some "FM",
        none⟩ 0).get? 3 = some "+" ∧
    (chirpRowFields ⟨some "RPT", some "146.52", some "147.12", some "100.0", some "FM",
        none⟩ 0).get? 4 = some (ratToFixed6 |mkRat 14712 100 - mkRat 14652 100|) :=
  ⟨by decide, by decide, by decide,
   ((chirpRow_duplex_offset ⟨some "RPT", some "146.52", some "147.12", some "100.0",
       some "FM", none⟩ 0 (mkRat 14652 100) (mkRat 14712 100)
       (by decide) (by decide)).2.1 (by decide)).1,
   ((chirpRow_duplex_offset ⟨some "RPT", some "146.52", some "147.12", some "100.0",
       some "FM", none⟩ 0 (mkRat 14652 100) (mkRat 14712 100)
       (by decide) (by decide)).2.1 (by decide)).2⟩

/-- C8: in every encoded row the Name field (field 1) is the record's
name truncated to at most 16 characters — a 30-character name becomes
exactly its first 16 characters — and the Comment field (field 13) is the
record's remarks with every comma replaced by a semicolon and then
truncated to 256 characters — a 300-character remarks becomes exactly 256
characters, the substitution being applied before the truncation. -/
theorem chirpRow_name_comment_trunc (freq : ChannelRec) (i : ℕ) (s r : String)
    (hn : freq.name = some s) (hslen : s.toList.length = 30)
    (hr : freq.remarks = some r) (hrlen : r.toList.length = 300) :
    (chirpRowFields freq i).get? 1 = some (String.mk (s.toList.take 16)) ∧
    (String.mk (s.toList.take 16)).toList.length = 16 ∧
    (chirpRowFields freq i).get? 13 = some (String.mk ((r.toList.map commaToSemi).take 256)) ∧
    (String.mk ((r.toList.map commaToSemi).take 256)).toList.length = 256 := by
  have hsne : s.toList.isEmpty = false := by
    cases h : s.toList
    · rw [h] at hslen; cases hslen
    · rfl
  have hrne : r.toList.isEmpty = false := by
    cases h : r.toList
    · rw [h] at hrlen; cases hrlen
    · rfl
  have hsd : s.data ≠ [] := by
    intro hd
    rw [show s.toList = s.data from rfl, hd] at hslen
    cases hslen
  have hrd : r.data ≠ [] := by
    intro hd
    rw [show r.toList = r.data from rfl, hd] at hrlen
    cases hrlen
  refine ⟨?_, ?_, ?_, ?_⟩
  · simp [chirpRowFields, hn, jsOrS, hsne, hsd]
  · rw [toList_mk, List.length_take, hslen]
    decide
  · simp [chirpRowFields, hr, jsOrS, hrne, hrd]
  · rw [toList_mk, List.length_take, List.length_map, hrlen]
    decide

set_option maxRecDepth 40000 in
/-- C8 witness: truncation on a concrete record with a 30-character name
and 300-character remarks containing commas. -/
theorem chirpRow_name_comment_trunc_witness :
    ("abcdefghijklmnopqrstuvwxyz,.;!" : String).toList.length = 30 ∧
    (String.join (List.replicate 60 "ab,cd")).toList.length = 300 ∧
    (chirpRowFields ⟨some "abcdefghijklmnopqrstuvwxyz,.;!", some "146.52", none, none, none,
        some (String.join (List.replicate 60 "ab,cd"))⟩ 0).get? 1 =
      some (String.mk (("abcdefghijklmnopqrstuvwxyz,.;!" : String).toList.take 16)) ∧
    (chirpRowFields ⟨some "abcdefghijklmnopqrstuvwxyz,.;!", some "146.52", none, none, none,
        some (String.join (List.replicate 60 "ab,cd"))⟩ 0).get? 13 =
      some (String.mk (((String.join (List.replicate 60 "ab,cd")).toList.map commaToSemi).take 256)) :=
  ⟨by decide, by decide,
   (chirpRow_name_comment_trunc _ 0 _ _ rfl (by decide) rfl (by decide)).1,
   (chirpRow_name_comment_trunc _ 0 _ _ rfl (by decide) rfl (by decide)).2.2.1⟩

/-- C9: the heuristic's tone detection inspects only the first
tone-shaped match on a line: whenever the first match parses to a value
outside the CTCSS window `[67, 254.1]` (the rational `2541/10`), the
produced record's tone is `null`, regardless of any later tone-shaped
substring on the same line. -/
theorem fallbackLine_tone_first_match (count : ℕ) (raw : String) (rec : ChannelRec)
    (t : String) (q : ℚ)
    (h : fallbackLine count raw = some rec)
    (hm : (jsScanNum 2 3 1 1 (trimChars raw.toList)).head? = some t)
    (hq : parseFloat t = some q)
    (hout : ¬(67 ≤ q ∧ q ≤ mkRat 2541 10)) :
    rec.tone = none := by
  simp only [fallbackLine] at h
  split at h
  · cases h
  split at h
  · cases h
  split at h
  · cases h
  split at h
  · cases h
  split at h
  · cases h
  cases h
  show lineTone (trimChars raw.toList) = none
  unfold lineTone
  rw [hm]
  simp only [hq]
  rw [if_neg hout]

/-- C9 witness: on the line `Alpha  146.520  146.520  12.5  100.0` the
first tone-shaped match is `12.5`, outside `[67, 254.1]`, so the record's
tone is `null` even though the later match `100.0` lies inside the
window. -/
theorem fallbackLine_tone_first_match_witness :
    fallbackLine 0 "Alpha  146.520  146.520  12.5  100.0" =
      some ⟨some "Alpha", some "146.520", some "146.520", none, some "FM", none⟩ ∧
    (jsScanNum 2 3 1 1 (trimChars "Alpha  146.520  146.520  12.5  100.0".toList)).head? =
      some "12.5" ∧
    parseFloat "12.5" = some (mkRat 125 10) ∧
    ¬(67 ≤ mkRat 125 10 ∧ mkRat 125 10 ≤ mkRat 2541 10) ∧
    "100.0" ∈ jsScanNum 2 3 1 1 (trimChars "Alpha  146.520  146.520  12.5  100.0".toList) ∧
    parseFloat "100.0" = some (mkRat 1000 10) ∧
    (67 ≤ mkRat 1000 10 ∧ mkRat 1000 10 ≤ mkRat 2541 10) ∧
    (⟨some "Alpha", some "146.520", some "146.520", none, some "FM",
        none⟩ : ChannelRec).tone = none :=
  ⟨by decide, by decide, by decide, by decide, by decide, by decide, by decide,
   fallbackLine_tone_first_match 0 "Alpha  146.520  146.520  12.5  100.0" _ "12.5"
     (mkRat 125 10) (by decide) (by decide) (by decide) (by decide)⟩

/-- When at least one backend is configured, the document tier fails (or
is not configured) and the extracted text is non-empty, the orchestrator's
result is the text-path result of `parseICS205WithAI`. -/
theorem convertICS205ToChirp_text_path (env : ConvEnv) (f text : String)
    (hkeys : env.openaiKey = true ∨ env.gradientKey = true)
    (hdoc : env.openaiKey = true → ∃ e, parseICS205WithOpenAI env = Except.error e)
    (hpdf : env.pdfText = Except.ok text)
    (htrim : (jsTrim text).toList.isEmpty = false) :
    convertICS205ToChirp env f =
      match parseICS205WithAI env text with
      | Except.error e => Except.error ("Failed to convert ICS-205: " ++ e)
      | Except.ok freqs => Except.ok ⟨true, convertToChirpCSV freqs,
          convertOutputFilename f, freqs.length⟩ := by
  have hval : (!env.openaiKey && !env.gradientKey) = false := by
    rcases hkeys with h | h <;> simp [h]
  have hext : extractTextFromPDF env = Except.ok text := by
    unfold extractTextFromPDF
    rw [hpdf]
    have hne : (jsTrim text).data ≠ [] := by
      intro hd
      rw [show (jsTrim text).toList = (jsTrim text).data from rfl, hd] at htrim
      simp at htrim
    simp [hne]
  unfold convertICS205ToChirp
  simp only [hval, Bool.false_eq_true, if_false, hext]
  cases ho : env.openaiKey with
  | true =>
    obtain ⟨e, he⟩ := hdoc ho
    simp only [ho, if_true, he]
  | false =>
    simp only [ho, Bool.false_eq_true, if_false]

/-- C1, counterexample: with OpenAI configured, a failing document tier
and a text-tier reply that is exactly the empty JSON array, the pipeline
returns a success whose channel list is empty (header-only CSV and
channelCount 0) instead of falling through to the heuristic tier. -/
theorem emptyTextTier_success_counterexample :
    convertICS205ToChirp ⟨true, false, Except.error "network", Except.ok "[]",
        Except.error "unused", Except.ok "Incident radio plan text"⟩ "plan.pdf" =
      Except.ok ⟨true, chirpHeader, "plan-channels.csv", 0⟩ := by rfl

/-- C1 (amended): an empty-array reply is treated as a tier failure only
in the OpenAI document tier, which rejects it with `OpenAI found no
frequencies in the PDF` and falls through to the text path; in the text
tiers a syntactically valid empty JSON array is returned as a successful
result, so the pipeline can return a success whose channel list is empty
(channelCount 0, header-only CSV) without consulting the heuristic
extractor. -/
theorem aiEmptyArray_tier_behavior (env : ConvEnv) (f doc txt text jsd jst : String)
    (hkey : env.openaiKey = true)
    (hdocR : env.openaiDocReply = Except.ok doc)
    (hjd : extractJsonArray doc = some jsd)
    (hpd : jsonParseFreqs jsd = Except.ok [])
    (htxtR : env.openaiTextReply = Except.ok txt)
    (hjt : extractJsonArray txt = some jst)
    (hpt : jsonParseFreqs jst = Except.ok [])
    (hpdf : env.pdfText = Except.ok text)
    (htrim : (jsTrim text).toList.isEmpty = false) :
    parseICS205WithOpenAI env = Except.error "OpenAI found no frequencies in the PDF" ∧
    parseTextWithOpenAI env text = Except.ok [] ∧
    convertICS205ToChirp env f =
      Except.ok ⟨true, convertToChirpCSV [], convertOutputFilename f, 0⟩ := by
  have hdocE : parseICS205WithOpenAI env =
      Except.error "OpenAI found no frequencies in the PDF" := by
    unfold parseICS205WithOpenAI
    simp only [hkey, Bool.not_true, Bool.false_eq_true, if_false, hdocR, hjd, hpd]
  have htextOk : parseTextWithOpenAI env text = Except.ok [] := by
    unfold parseTextWithOpenAI
    simp only [hkey, Bool.not_true, Bool.false_eq_true, if_false, htxtR, hjt, hpt]
  have hai : parseICS205WithAI env text = Except.ok [] := by
    unfold parseICS205WithAI
    simp only [hkey, if_true, htextOk]
  refine ⟨hdocE, htextOk, ?_⟩
  rw [convertICS205ToChirp_text_path env f text (Or.inl hkey) (fun _ => ⟨_, hdocE⟩) hpdf htrim,
    hai]
  rfl

/-- C1 witness: the amended tier behavior on a concrete environment whose
document-tier and text-tier replies are both the literal `[]`. -/
theorem aiEmptyArray_tier_behavior_witness :
    parseICS205WithOpenAI ⟨true, false, Except.ok "[]", Except.ok "[]", Except.error "unused",
        Except.ok "Incident radio plan text"⟩ =
      Except.error "OpenAI found no frequencies in the PDF" ∧
    parseTextWithOpenAI ⟨true, false, Except.ok "[]", Except.ok "[]", Except.error "unused",
        Except.ok "Incident radio plan text"⟩ "Incident radio plan text" = Except.ok [] ∧
    convertICS205ToChirp ⟨true, false, Except.ok "[]", Except.ok "[]", Except.error "unused",
        Except.ok "Incident radio plan text"⟩ "plan.pdf" =
      Except.ok ⟨true, convertToChirpCSV [], convertOutputFilename "plan.pdf", 0⟩ :=
  aiEmptyArray_tier_behavior
    ⟨true, false, Except.ok "[]", Except.ok "[]", Except.error "unused",
      Except.ok "Incident radio plan text"⟩
    "plan.pdf" "[]" "[]" "Incident radio plan text" "[]" "[]"
    rfl rfl (by decide) (by decide) rfl (by decide) (by decide) rfl (by decide)

/-- C7: when every configured AI backend fails — the document tier when
OpenAI is configured, the OpenAI text tier when configured, and the
Gradient tier — and the extracted text makes the heuristic succeed, the
text-path result is exactly the heuristic extractor's direct output, and
the orchestrator returns that record list encoded. -/
theorem allAIFail_heuristic_result (env : ConvEnv) (f text : String) (l : List ChannelRec)
    (hkeys : env.openaiKey = true ∨ env.gradientKey = true)
    (hdoc : env.openaiKey = true → ∃ e, parseICS205WithOpenAI env = Except.error e)
    (htext : env.openaiKey = true → ∃ e, parseTextWithOpenAI env text = Except.error e)
    (hgrad : ∃ e, gradientParse env = Except.error e)
    (hpdf : env.pdfText = Except.ok text)
    (htrim : (jsTrim text).toList.isEmpty = false)
    (hfb : fallbackParsing text = Except.ok l) :
    parseICS205WithAI env text = fallbackParsing text ∧
    convertICS205ToChirp env f =
      Except.ok ⟨true, convertToChirpCSV l, convertOutputFilename f, l.length⟩ := by
  have hai : parseICS205WithAI env text = fallbackParsing text := by
    unfold parseICS205WithAI
    obtain ⟨e2, hg⟩ := hgrad
    cases ho : env.openaiKey with
    | true =>
      obtain ⟨e1, ht⟩ := htext ho
      simp only [ho, if_true, ht, hg]
    | false =>
      simp only [ho, Bool.false_eq_true, if_false, hg]
  refine ⟨hai, ?_⟩
  rw [convertICS205ToChirp_text_path env f text hkeys hdoc hpdf htrim, hai, hfb]

/-- C7 witness: the fallthrough on a concrete environment where both
backends are configured and every AI call throws. -/
theorem allAIFail_heuristic_result_witness :
    parseICS205WithAI ⟨true, true, Except.error "network", Except.error "network",
        Except.error "network", Except.ok "Simplex  146.520  146.520  100.0"⟩
        "Simplex  146.520  146.520  100.0" =
      fallbackParsing "Simplex  146.520  146.520  100.0" ∧
    convertICS205ToChirp ⟨true, true, Except.error "network", Except.error "network",
        Except.error "network", Except.ok "Simplex  146.520  146.520  100.0"⟩ "plan.pdf" =
      Except.ok ⟨true,
        convertToChirpCSV [⟨some "Simplex", some "146.520", some "146.520", some "100.0",
          some "FM", none⟩],
        convertOutputFilename "plan.pdf",
        [(⟨some "Simplex", some "146.520", some "146.520", some "100.0", some "FM",
          none⟩ : ChannelRec)].length⟩ :=
  allAIFail_heuristic_result
    ⟨true, true, Except.error "network", Except.error "network", Except.error "network",
      Except.ok "Simplex  146.520  146.520  100.0"⟩
    "plan.pdf" "Simplex  146.520  146.520  100.0"
    [⟨some "Simplex", some "146.520", some "146.520", some "100.0", some "FM", none⟩]
    (Or.inl rfl) (fun _ => ⟨"network", rfl⟩) (fun _ => ⟨"network", rfl⟩) ⟨"network", rfl⟩
    rfl (by decide) (by decide)

/-- C10: the encoder applied to an empty record list returns exactly the
header line with no data rows, and a conversion whose text path yields an
empty list returns that header-only CSV with channelCount 0. -/
theorem convertToChirpCSV_empty (env : ConvEnv) (f text : String)
    (hkeys : env.openaiKey = true ∨ env.gradientKey = true)
    (hdoc : env.openaiKey = true → ∃ e, parseICS205WithOpenAI env = Except.error e)
    (hpdf : env.pdfText = Except.ok text)
    (htrim : (jsTrim text).toList.isEmpty = false)
    (hai : parseICS205WithAI env text = Except.ok []) :
    convertToChirpCSV [] = chirpHeader ∧
    convertICS205ToChirp env f =
      Except.ok ⟨true, chirpHeader, convertOutputFilename f, 0⟩ := by
  refine ⟨rfl, ?_⟩
  rw [convertICS205ToChirp_text_path env f text hkeys hdoc hpdf htrim, hai]
  rfl

/-- C10 witness: a Gradient-only environment whose reply is the empty
array; the result is the header-only CSV. -/
theorem convertToChirpCSV_empty_witness :
    convertToChirpCSV [] = chirpHeader ∧
    convertICS205ToChirp ⟨false, true, Except.error "unused", Except.error "unused",
        Except.ok "[]", Except.ok "Incident radio plan text"⟩ "plan.pdf" =
      Except.ok ⟨true, chirpHeader, convertOutputFilename "plan.pdf", 0⟩ :=
  convertToChirpCSV_empty
    ⟨false, true, Except.error "unused", Except.error "unused", Except.ok "[]",
      Except.ok "Incident radio plan text"⟩
    "plan.pdf" "Incident radio plan text"
    (Or.inr rfl) (fun h => absurd h (by decide)) rfl (by decide) (by decide)

/-- C5, counterexample: a record whose free-text name contains a line
feed makes the encoder emit that character verbatim, so the CSV splits
into three newline-separated lines for a single record rather than the
claimed `len(records) + 1 = 2`. -/
theorem csv_lines_newline_counterexample :
    (splitNlStr (convertToChirpCSV
        [⟨some (String.mk ['a', '\n', 'b']), some "146.52", some "146.52", none, some "FM",
          none⟩])).length ≠
      [(⟨some (String.mk ['a', '\n', 'b']), some "146.52", some "146.52", none, some "FM",
          none⟩ : ChannelRec)].length + 1 := by decide

/-- C5 (amended): for every non-empty record list whose free-text fields
(name, tone, mode, remarks) contain no line-feed character, the encoder
produces exactly `len(records) + 1` newline-separated lines — the fixed
header plus one row per record in input order — and the Location field
(the text before the first comma) of the data rows is `0, 1, ...,
len(records) - 1` in order.  Without the no-line-feed proviso the line
count can exceed `len(records) + 1`, since free-text fields are emitted
verbatim. -/
theorem convertToChirpCSV_lines (records : List ChannelRec) (hne : records ≠ [])
    (hnl : ∀ r ∈ records, recNoNl r = true) :
    (splitNlStr (convertToChirpCSV records)).length = records.length + 1 ∧
    ((splitNlStr (convertToChirpCSV records)).drop 1).map
        (fun ln => String.mk (firstField ln.toList)) =
      (List.range records.length).map natRepr := by
  have hsplit : splitNl ((convertToChirpCSV records).toList) =
      chirpHeader.toList :: chirpRowsL 0 records := by
    show splitNl (joinNlL (chirpHeader.toList :: chirpRowsL 0 records)) = _
    refine splitNl_joinNlL _ (by simp) ?_
    intro l hl
    rcases List.mem_cons.mp hl with rfl | hl
    · decide
    · exact chirpRowsL_noNl records 0 hnl l hl
  constructor
  · unfold splitNlStr
    rw [hsplit]
    simp [chirpRowsL_length]
  · unfold splitNlStr
    rw [hsplit, List.map_cons, List.drop_one, List.tail_cons, List.map_map]
    have hcomp : ((fun ln => String.mk (firstField ln.toList)) ∘ String.mk) =
        fun l => String.mk (firstField l) := by
      funext l
      rw [Function.comp_apply, toList_mk]
    rw [hcomp, chirpRowsL_firstFields records 0, List.range_eq_range']

/-- C5 witness: the line shape on a concrete two-record list. -/
theorem convertToChirpCSV_lines_witness :
    (splitNlStr (convertToChirpCSV
        [⟨some "Simplex", some "146.520", some "146.520", some "100.0", some "FM", none⟩,
         ⟨some "CMD1", some "155.160", some "155.160", none, some "FM", some "l"⟩])).length =
      [(⟨some "Simplex", some "146.520", some "146.520", some "100.0", some "FM",
          none⟩ : ChannelRec),
       ⟨some "CMD1", some "155.160", some "155.160", none, some "FM", some "l"⟩].length + 1 ∧
    ((splitNlStr (convertToChirpCSV
        [⟨some "Simplex", some "146.520", some "146.520", some "100.0", some "FM", none⟩,
         ⟨some "CMD1", some "155.160", some "155.160", none, some "FM", some "l"⟩])).drop 1).map
        (fun ln => String.mk (firstField ln.toList)) =
      (List.range
        [(⟨some "Simplex", some "146.520", some "146.520", some "100.0", some "FM",
            none⟩ : ChannelRec),
         ⟨some "CMD1", some "155.160", some "155.160", none, some "FM",
            some "l"⟩].length).map natRepr :=
  convertToChirpCSV_lines
    [⟨some "Simplex", some "146.520", some "146.520", some "100.0", some "FM", none⟩,
     ⟨some "CMD1", some "155.160", some "155.160", none, some "FM", some "l"⟩]
    (by decide) (by decide)

/-- C4 (amended): the heuristic applied to the single line `CMD1  Command
155.160  155.160  –  FM  Net control` produces one record with
rxFrequency `155.160`, txFrequency `155.160`, tone `null` and mode `FM`,
but the name is `CMD1`: the name heuristic takes the first
double-space-delimited segment of the first 30 characters (here `CMD1`),
strips leading digits/dots/dashes/spaces (nothing here, as `CMD1` starts
with a letter) and keeps it since at least 2 characters remain; the
`Channel (n)` substitute is not used. -/
theorem fallback_cmd_line_record :
    fallbackParsing "CMD1  Command  155.160  155.160  –  FM  Net control" =
      Except.ok [⟨some "CMD1", some "155.160", some "155.160", none, some "FM",
        some "l"⟩] := by decide

/-- C2, counterexample: the source derives the output filename by
`filename.replace` with the end-anchored case-insensitive pattern `.pdf`;
a `replace` whose pattern does not match returns the string unchanged, so
the input `plan` (no extension) yields `plan`, not `plan-channels.csv` as
the claim states; a full conversion run with input filename `plan`
accordingly reports filename `plan`. -/
theorem convertOutputFilename_plan_counterexample :
    convertOutputFilename "plan" = "plan" ∧
    convertOutputFilename "plan" ≠ "plan-channels.csv" ∧
    convertICS205ToChirp ⟨true, true, Except.error "net", Except.error "net", Except.error "net",
      Except.ok "Simplex  146.520  146.520  100.0"⟩ "plan" =
      Except.ok ⟨true, convertToChirpCSV [⟨some "Simplex", some "146.520", some "146.520",
        some "100.0", some "FM", none⟩], "plan", 1⟩ :=
  ⟨rfl, by decide, by rfl⟩

/-- Characterization of the filename derivation: a trailing
case-insensitive `.pdf` is replaced; otherwise the input is unchanged. -/
theorem convertOutputFilename_spec (f : String) :
    (4 ≤ f.toList.length ∧ lowerChars (f.toList.drop (f.toList.length - 4)) = ['.', 'p', 'd', 'f'] →
      convertOutputFilename f = String.mk (f.toList.take (f.toList.length - 4)) ++ "-channels.csv") ∧
    (¬(4 ≤ f.toList.length ∧ lowerChars (f.toList.drop (f.toList.length - 4)) = ['.', 'p', 'd', 'f']) →
      convertOutputFilename f = f) := by
  unfold convertOutputFilename
  constructor
  · intro hc
    rw [if_pos hc]
  · intro hc
    rw [if_neg hc]

/-- C2 (amended): for every successful conversion, the output filename
equals the input filename with a trailing `.pdf` (matched
case-insensitively) replaced by `-channels.csv`; when no such trailing
`.pdf` exists the input filename is returned unchanged (no suffix is
appended).  In particular `plan.PDF` yields `plan-channels.csv` while
`plan` yields `plan`. -/
theorem convertICS205ToChirp_filename (env : ConvEnv) (f : String) (r : ConvResult)
    (h : convertICS205ToChirp env f = Except.ok r) :
    (4 ≤ f.toList.length ∧ lowerChars (f.toList.drop (f.toList.length - 4)) = ['.', 'p', 'd', 'f'] →
      r.filename = String.mk (f.toList.take (f.toList.length - 4)) ++ "-channels.csv") ∧
    (¬(4 ≤ f.toList.length ∧ lowerChars (f.toList.drop (f.toList.length - 4)) = ['.', 'p', 'd', 'f']) →
      r.filename = f) := by
  obtain ⟨freqs, rfl⟩ := convertICS205ToChirp_ok_shape env f r h
  exact convertOutputFilename_spec f

/-- C2 witness: the amended filename rule applied to a concrete
conversion with input filename `plan.PDF`. -/
theorem convertICS205ToChirp_filename_witness :
    (⟨true, convertToChirpCSV [⟨some "Simplex", some "146.520", some "146.520", some "100.0",
        some "FM", none⟩], "plan-channels.csv", 1⟩ : ConvResult).filename =
      String.mk ("plan.PDF".toList.take ("plan.PDF".toList.length - 4)) ++ "-channels.csv" :=
  (convertICS205ToChirp_filename
    ⟨true, true, Except.error "net", Except.error "net", Except.error "net",
      Except.ok "Simplex  146.520  146.520  100.0"⟩ "plan.PDF"
    ⟨true, convertToChirpCSV [⟨some "Simplex", some "146.520", some "146.520", some "100.0",
        some "FM", none⟩], "plan-channels.csv", 1⟩ (by rfl)).1 (by decide)

end ICS205
